import Mathlib

/-!
Verification of the job-scheduler core in
`src/Python/Job Scheduler/job_scheduler.py`.

Shallow embedding choices:
* Clock values (`time.time()` floats) and job intervals are modelled as `Int`;
  the claims only depend on ordered arithmetic of timestamps, never on
  floating-point representation.  One `now` value is used per sweep (the source
  reads the clock once in `should_run` and once in `run`; the gap between the
  two reads is irrelevant to every claim).
* A job's `func` callable is modelled as `Int → Except String Unit`: applied to
  the current time it either succeeds (`Except.ok`) or signals an error
  (`Except.error`), mirroring the `try`/`except Exception` of `Job.run`.
  Logging (`logger.info` etc.) is the observer sink and carries no state.
* The scheduler's `self.jobs : Dict[str, Job]` preserves insertion order and
  `self.jobs[name] = job` overwrites in place, so the registry is a `List Job`
  and registration either replaces the entry with the matching name (keeping
  its position) or appends.
* `TaskScheduler.start`'s infinite `while True` loop is modelled by `runTrace`,
  which runs one sweep (`runOnce`) per clock value in a finite trace; the
  `time.sleep` between sweeps only determines which clock values occur.
-/

/-- Embeds the `Job` dataclass: `name`, `func`, `interval`, `retries`
(default `0`), `max_retries` (default `3`), `last_run` (default `0.0`). -/
structure Job where
  name : String
  func : Int → Except String Unit
  interval : Int
  retries : Nat
  max_retries : Nat
  last_run : Int

/-- Embeds `Job.should_run`:
`return (time.time() - self.last_run) >= self.interval`. -/
def Job.should_run (j : Job) (now : Int) : Bool :=
  decide (j.interval ≤ now - j.last_run)

/-- Embeds `Job.run`: `try: self.func(); self.last_run = time.time();
self.retries = 0` and `except Exception: self.retries += 1`.  Note the
`except` branch does not touch `last_run`. -/
def Job.run (j : Job) (now : Int) : Job :=
  match j.func now with
  | Except.ok _ => { j with last_run := now, retries := 0 }
  | Except.error _ => { j with retries := j.retries + 1 }

/-- The guard of the sweep loop in `TaskScheduler.start`:
`if job.should_run() and job.retries < job.max_retries`. -/
def dueArmed (now : Int) (j : Job) : Bool :=
  j.should_run now && decide (j.retries < j.max_retries)

/-- One job's treatment during a sweep: run it when the guard holds,
leave it untouched otherwise. -/
def stepJob (now : Int) (j : Job) : Job :=
  if dueArmed now j then j.run now else j

/-- One sweep of `TaskScheduler.start`'s loop body over the registry, at clock
value `now`.  Returns the updated registry together with the list of job
records whose `func` was invoked, in iteration order (each recorded in the
state it had when invoked). -/
def runOnce (now : Int) : List Job → List Job × List Job
  | [] => ([], [])
  | j :: rest =>
    let r := runOnce now rest
    if dueArmed now j then (j.run now :: r.1, j :: r.2) else (j :: r.1, r.2)

/-- Repeated sweeps of the scheduler loop, one per clock value in `times`.
Returns the final registry and all invoked job records across the sweeps,
in order of invocation. -/
def runTrace : List Int → List Job → List Job × List Job
  | [], js => (js, [])
  | now :: rest, js =>
    let s := runOnce now js
    let t := runTrace rest s.1
    (t.1, s.2 ++ t.2)

/-- The job record built by the `TaskScheduler.job` decorator:
`Job(name=name, func=func, interval=interval, max_retries=max_retries)`,
with the dataclass defaults `retries = 0` and `last_run = 0.0`. -/
def mkJob (name : String) (func : Int → Except String Unit) (interval : Int)
    (max_retries : Nat) : Job :=
  { name := name, func := func, interval := interval, retries := 0,
    max_retries := max_retries, last_run := 0 }

/-- Replacement of the entry stored under key `n` in an insertion-ordered
mapping: every element whose `name` is `n` becomes `j2`, positions kept. -/
def replaceNamed (n : String) (j2 : Job) (js : List Job) : List Job :=
  js.map (fun k => if k.name == n then j2 else k)

/-- Embeds registration, `self.jobs[name] = job`: Python dict assignment
overwrites the value at an existing key keeping its position, otherwise
appends a new entry. -/
def registerJob (js : List Job) (n : String) (f : Int → Except String Unit)
    (i : Int) (m : Nat) : List Job :=
  if js.any (fun k => k.name == n) then replaceNamed n (mkJob n f i m) js
  else js ++ [mkJob n f i m]

/-- Dictionary lookup `self.jobs[name]` on the insertion-ordered registry. -/
def lookupJob (js : List Job) (n : String) : Option Job :=
  js.find? (fun k => k.name == n)

/-- Modelled from the spec: the spec's description of `shouldRun(now)`,
`true iff NOT suspended AND (now - lastRunAt) >= interval`, to be compared
with the source's `Job.should_run`. -/
def should_run_spec (j : Job) (now : Int) : Bool :=
  decide (j.retries < j.max_retries) && decide (j.interval ≤ now - j.last_run)

/-- The retry-budget invariant of a single job record, as a boolean check. -/
def retriesInv (j : Job) : Bool :=
  decide (j.retries ≤ j.max_retries)

/-! ### Characterisations of one sweep -/

theorem runOnce_fst (now : Int) (js : List Job) :
    (runOnce now js).1 = js.map (stepJob now) := by
  induction js with
  | nil => rfl
  | cons j rest ih =>
    by_cases h : dueArmed now j = true <;>
      simp [runOnce, stepJob, h, ih]

theorem runOnce_snd (now : Int) (js : List Job) :
    (runOnce now js).2 = js.filter (dueArmed now) := by
  induction js with
  | nil => rfl
  | cons j rest ih =>
    by_cases h : dueArmed now j = true <;>
      simp [runOnce, List.filter_cons, h, ih]

/-! ### Helper lemmas -/

theorem dueArmed_retries_lt (now : Int) (j : Job) (h : dueArmed now j = true) :
    j.retries < j.max_retries := by
  simp [dueArmed] at h
  exact h.2

theorem stepJob_suspended (now : Int) (j : Job) (h : j.max_retries ≤ j.retries) :
    stepJob now j = j := by
  have hd : dueArmed now j = false := by
    simp [dueArmed, Job.should_run]
    omega
  simp [stepJob, hd]

theorem stepJob_retriesInv (now : Int) (j : Job) (h : retriesInv j = true) :
    retriesInv (stepJob now j) = true := by
  by_cases hg : dueArmed now j = true
  · have hlt := dueArmed_retries_lt now j hg
    simp only [stepJob, hg, if_true]
    cases hf : j.func now with
    | ok v => simp [retriesInv, Job.run, hf]
    | error e =>
      simp only [retriesInv, Job.run, hf, decide_eq_true_eq]
      omega
  · simp only [stepJob, hg, if_false, Bool.not_eq_true] at *
    simp [stepJob, hg, h]

theorem runOnce_invoked_armed (now : Int) (js : List Job) (k : Job)
    (h : k ∈ (runOnce now js).2) : k.retries < k.max_retries := by
  rw [runOnce_snd] at h
  exact dueArmed_retries_lt now k (List.of_mem_filter h)

theorem runTrace_invoked_armed (times : List Int) (js : List Job) (k : Job)
    (h : k ∈ (runTrace times js).2) : k.retries < k.max_retries := by
  induction times generalizing js with
  | nil => simp [runTrace] at h
  | cons now rest ih =>
    simp only [runTrace, List.mem_append] at h
    rcases h with h | h
    · exact runOnce_invoked_armed now js k h
    · exact ih _ h

theorem runOnce_get_suspended (now : Int) (js : List Job) (i : Nat) (j : Job)
    (hj : js[i]? = some j) (h : j.max_retries ≤ j.retries) :
    (runOnce now js).1[i]? = some j := by
  rw [runOnce_fst, List.getElem?_map, hj]
  simp [stepJob_suspended now j h]

theorem runTrace_get_suspended (times : List Int) (js : List Job) (i : Nat)
    (j : Job) (hj : js[i]? = some j) (h : j.max_retries ≤ j.retries) :
    (runTrace times js).1[i]? = some j := by
  induction times generalizing js with
  | nil => simpa [runTrace] using hj
  | cons now rest ih =>
    simp only [runTrace]
    exact ih _ (runOnce_get_suspended now js i j hj h)

theorem runOnce_all_retriesInv (now : Int) (js : List Job)
    (h : js.all retriesInv = true) : (runOnce now js).1.all retriesInv = true := by
  rw [runOnce_fst, List.all_eq_true] at *
  intro k hk
  rcases List.mem_map.1 hk with ⟨j, hj, rfl⟩
  exact stepJob_retriesInv now j (h j hj)

theorem runTrace_all_retriesInv (times : List Int) (js : List Job)
    (h : js.all retriesInv = true) : (runTrace times js).1.all retriesInv = true := by
  induction times generalizing js with
  | nil => simpa [runTrace] using h
  | cons now rest ih =>
    simp only [runTrace]
    exact ih _ (runOnce_all_retriesInv now js h)

theorem replaceNamed_cons (n : String) (j2 k : Job) (rest : List Job) :
    replaceNamed n j2 (k :: rest) =
      (if k.name == n then j2 else k) :: replaceNamed n j2 rest := rfl

theorem find_replaceNamed_hit (n : String) (j2 : Job) (hj2 : j2.name = n) :
    ∀ js : List Job, js.any (fun k => k.name == n) = true →
      List.find? (fun k => k.name == n) (replaceNamed n j2 js) = some j2 := by
  intro js
  induction js with
  | nil => simp
  | cons k rest ih =>
    intro hany
    rw [replaceNamed_cons]
    by_cases hk : (k.name == n) = true
    · rw [if_pos hk]
      simp [List.find?_cons, hj2]
    · have hrest : rest.any (fun k => k.name == n) = true := by
        simpa [List.any_cons, hk] using hany
      rw [if_neg hk]
      simp only [List.find?_cons, Bool.not_eq_true] at *
      rw [hk]
      exact ih hrest

theorem find_replaceNamed_other (n n2 : String) (j2 : Job) (hj2 : j2.name = n)
    (hne : n2 ≠ n) :
    ∀ js : List Job,
      List.find? (fun k => k.name == n2) (replaceNamed n j2 js) =
        List.find? (fun k => k.name == n2) js := by
  intro js
  induction js with
  | nil => rfl
  | cons k rest ih =>
    rw [replaceNamed_cons]
    by_cases hk : (k.name == n) = true
    · have hkn : k.name = n := by simpa using hk
      have h1 : ¬((j2.name == n2) = true) := by
        simp [hj2]
        exact fun h => hne h.symm
      have h2 : ¬((k.name == n2) = true) := by
        simp [hkn]
        exact fun h => hne h.symm
      rw [if_pos hk]
      simp only [List.find?_cons, Bool.not_eq_true] at *
      rw [h1, h2]
      exact ih
    · rw [if_neg hk]
      by_cases hk2 : (k.name == n2) = true
      · simp only [List.find?_cons]
        rw [hk2]
      · simp only [List.find?_cons, Bool.not_eq_true] at *
        rw [hk2]
        exact ih

theorem lookupJob_any (js : List Job) (n : String) (old : Job)
    (h : lookupJob js n = some old) : js.any (fun k => k.name == n) = true := by
  simp only [lookupJob] at h
  have h1 := List.find?_some h
  have h2 := List.mem_of_find?_eq_some h
  rw [List.any_eq_true]
  exact ⟨old, h2, h1⟩

/-! ### Concrete job records used in counterexamples and witnesses -/

/-- A work callable that always succeeds. -/
def okFunc : Int → Except String Unit := fun _ => Except.ok ()

/-- A work callable that always signals an error. -/
def errFunc : Int → Except String Unit := fun _ => Except.error ("boom")

/-- A due, armed job whose work fails. -/
def jF : Job :=
  { name := "f", func := errFunc, interval := 5, retries := 0,
    max_retries := 3, last_run := 0 }

/-- A job that has accumulated `max_retries` consecutive failures. -/
def jS2 : Job :=
  { name := "s", func := okFunc, interval := 5, retries := 3,
    max_retries := 3, last_run := 0 }

/-- A registered job carrying accumulated state (two failures, a past run). -/
def j1 : Job :=
  { name := "a", func := okFunc, interval := 5, retries := 2,
    max_retries := 3, last_run := 9 }

/-- A suspended job with `max_retries = 0`: its work succeeds, yet no reset
can take `retries` strictly below `0`. -/
def jZ : Job :=
  { name := "z", func := okFunc, interval := 1, retries := 3,
    max_retries := 0, last_run := 0 }

/-- A suspended job (`retries = max_retries = 1`) with succeeding work. -/
def jSusp : Job :=
  { name := "w", func := okFunc, interval := 1, retries := 1,
    max_retries := 1, last_run := 0 }

/-- A due, armed job with succeeding work, for the sweep-order witnesses. -/
def jA : Job :=
  { name := "A", func := okFunc, interval := 1, retries := 0,
    max_retries := 3, last_run := 0 }

/-- A second due, armed job, registered after `jA`. -/
def jB : Job :=
  { name := "B", func := okFunc, interval := 2, retries := 0,
    max_retries := 3, last_run := 0 }

/-- A job with a partly used retry budget (`retries = 2` of `max_retries = 2`)
whose work succeeds, for the direct-run witnesses. -/
def jW9 : Job :=
  { name := "n", func := okFunc, interval := 4, retries := 2,
    max_retries := 2, last_run := 0 }

/-! ### C1 -/

/-- C1, counterexample: for the failing job `jF` run at time `100`,
`retries` is incremented but `last_run` stays at `0` rather than being set
to `100`, and `should_run 100` is still true immediately after the failed
run — the failed attempt does not consume the interval, contradicting the
claim. -/
theorem C1_counterexample :
    jF.func 100 = Except.error ("boom") ∧
      (jF.run 100).retries = jF.retries + 1 ∧
      (jF.run 100).last_run ≠ 100 ∧
      (jF.run 100).should_run 100 = true := by
  refine ⟨rfl, rfl, ?_, ?_⟩ <;> decide

/-- C1, amended: when `Job.run` executes and the work callable fails,
`retries` is incremented by exactly `1` and `last_run` is left unchanged, so
the failed attempt does not consume the interval: `should_run` is unchanged
by the failed run and the job stays eligible at any time at which it was
already due. -/
theorem C1_run_failure (j : Job) (now now2 : Int) (e : String)
    (h : j.func now = Except.error e) :
    (j.run now).retries = j.retries + 1 ∧
      (j.run now).last_run = j.last_run ∧
      (j.run now).should_run now2 = j.should_run now2 := by
  simp [Job.run, h, Job.should_run]

/-- C1, witness for `C1_run_failure` at `jF`, `now = 100`. -/
theorem C1_run_failure_witness :
    (jF.run 100).retries = jF.retries + 1 ∧
      (jF.run 100).last_run = jF.last_run ∧
      (jF.run 100).should_run 100 = jF.should_run 100 :=
  C1_run_failure jF 100 100 ("boom") rfl

/-! ### C2 -/

/-- C2, counterexample: the job `jS2` has reached `max_retries`
(`retries = max_retries = 3`), yet `should_run 100` returns `true` — the
source's `should_run` checks only the interval and disagrees with the
spec-side predicate `should_run_spec`, which short-circuits on
suspension. -/
theorem C2_counterexample :
    jS2.max_retries ≤ jS2.retries ∧
      jS2.should_run 100 = true ∧
      jS2.should_run 100 ≠ should_run_spec jS2 100 := by
  refine ⟨?_, ?_, ?_⟩ <;> decide

/-- C2, amended: `should_run now` returns `true` iff
`(now - last_run) ≥ interval`; it performs no suspension check — its result
is independent of `retries` (and of `max_retries`) — and it is a pure
function of the job record and `now`.  The suspension short-circuit
(`retries < max_retries`) is enforced only by the scheduler loop's guard. -/
theorem C2_should_run_interval_only (j : Job) (now : Int) :
    (j.should_run now = true ↔ j.interval ≤ now - j.last_run) ∧
      ∀ r m : Nat,
        ({ j with retries := r, max_retries := m } : Job).should_run now =
          j.should_run now := by
  constructor
  · simp [Job.should_run]
  · intro r m
    simp [Job.should_run]

/-! ### C5 -/

/-- C5: when the work callable succeeds, `Job.run` sets `last_run` to the
current time, resets `retries` to `0`, and leaves every other field
(`name`, `func`, `interval`, `max_retries`) unchanged. -/
theorem C5_run_success (j : Job) (now : Int) (h : j.func now = Except.ok ()) :
    j.run now = { j with last_run := now, retries := 0 } := by
  simp [Job.run, h]

/-- C5, witness for `C5_run_success` at `jA`, `now = 7`. -/
theorem C5_run_success_witness :
    jA.run 7 = { jA with last_run := 7, retries := 0 } :=
  C5_run_success jA 7 rfl

/-! ### C6 -/

/-- C6: a freshly registered job has `last_run = 0` (the "never run"
sentinel) and `retries = 0`, so its first `should_run now` returns `true`
at every clock value the scheduler can observe at start-up, i.e. whenever
`now` is at least the job's interval — which every realistic epoch
timestamp is; the job fires on the first sweep instead of waiting out one
interval. -/
theorem C6_fresh_job_fires (name : String) (func : Int → Except String Unit)
    (interval : Int) (m : Nat) (now : Int) (h : interval ≤ now) :
    (mkJob name func interval m).last_run = 0 ∧
      (mkJob name func interval m).retries = 0 ∧
      (mkJob name func interval m).should_run now = true := by
  refine ⟨rfl, rfl, ?_⟩
  simp only [mkJob, Job.should_run, decide_eq_true_eq]
  omega

/-- C6, witness for `C6_fresh_job_fires`: a fresh job with interval `5`
queried at epoch-style time `1000000`. -/
theorem C6_fresh_job_fires_witness :
    (mkJob ("e") okFunc 5 3).last_run = 0 ∧
      (mkJob ("e") okFunc 5 3).retries = 0 ∧
      (mkJob ("e") okFunc 5 3).should_run 1000000 = true :=
  C6_fresh_job_fires ("e") okFunc 5 3 1000000 (by decide)

/-! ### C9 -/

/-- C9, counterexample: `jZ` has `max_retries = 0` and `retries = 3`, so it
is suspended; its work succeeds, and a direct `Job.run` resets `retries` to
`0` — but the job does not leave the suspended condition, since
`0 < max_retries` fails.  This refutes the claim's "leaves the suspended
condition" conjunct in general. -/
theorem C9_counterexample :
    jZ.max_retries ≤ jZ.retries ∧
      jZ.func 5 = Except.ok () ∧
      (jZ.run 5).retries = 0 ∧
      ¬ (jZ.run 5).retries < jZ.max_retries := by
  refine ⟨by decide, rfl, rfl, by decide⟩

/-- C9, amended: `Job.run` itself does not enforce suspension: invoked
directly on a job whose `retries` already reached `max_retries`, a
successful run still resets `retries` to `0`; whenever `max_retries` is
positive this takes the job out of the suspended condition.  Terminality of
suspension is guaranteed only by the scheduler loop's guard
`retries < max_retries`, not by the job record. -/
theorem C9_run_ignores_suspension (j : Job) (now : Int)
    (_hs : j.max_retries ≤ j.retries) (hok : j.func now = Except.ok ()) :
    (j.run now).retries = 0 ∧
      (0 < j.max_retries → (j.run now).retries < j.max_retries) := by
  simp [Job.run, hok]

/-- C9, witness for `C9_run_ignores_suspension` at `jW9`
(`retries = max_retries = 2`), `now = 5`: the successful run resets
`retries` to `0`. -/
theorem C9_run_ignores_suspension_witness : (jW9.run 5).retries = 0 :=
  (C9_run_ignores_suspension jW9 5 (by decide) rfl).1

/-! ### C3 -/

/-- C3, counterexample: registering a second job under the already-used name
`"a"` does not leave the original record `j1` in place: the registry now
stores a fresh record (with the new interval `7` and reset state) under that
name, and no error is surfaced — registration silently overwrites. -/
theorem C3_counterexample :
    lookupJob (registerJob [j1] ("a") errFunc 7 1) ("a") ≠ some j1 := by
  intro h
  have h2 : lookupJob (registerJob [j1] ("a") errFunc 7 1) ("a")
      = some (mkJob ("a") errFunc 7 1) := rfl
  rw [h2] at h
  have h3 := congrArg Job.interval (Option.some.inj h)
  simp [mkJob, j1] at h3

/-- C3, amended: registering a job under a name that already exists silently
replaces the stored record: registration raises no error, the entry under
that name becomes the freshly constructed record (retries `0`, sentinel
`last_run`, the new `func`, `interval` and `max_retries`), the registry size
is unchanged (the entry keeps its position), and entries under every other
name are untouched; the original record's accumulated state is discarded. -/
theorem C3_register_duplicate_overwrites (js : List Job) (n : String)
    (f : Int → Except String Unit) (i : Int) (m : Nat) (old : Job)
    (h : lookupJob js n = some old) :
    lookupJob (registerJob js n f i m) n = some (mkJob n f i m) ∧
      (registerJob js n f i m).length = js.length ∧
      ∀ n2, n2 ≠ n → lookupJob (registerJob js n f i m) n2 = lookupJob js n2 := by
  have hany := lookupJob_any js n old h
  refine ⟨?_, ?_, ?_⟩
  · simp only [lookupJob, registerJob, hany, if_true]
    exact find_replaceNamed_hit n (mkJob n f i m) rfl js hany
  · simp [registerJob, hany, replaceNamed]
  · intro n2 hne
    simp only [lookupJob, registerJob, hany, if_true]
    exact find_replaceNamed_other n n2 (mkJob n f i m) rfl hne js

/-- C3, witness for `C3_register_duplicate_overwrites`: re-registering the
name `"a"` over the one-job registry `[j1]` yields the fresh record. -/
theorem C3_register_duplicate_overwrites_witness :
    lookupJob (registerJob [j1] ("a") okFunc 7 1) ("a")
      = some (mkJob ("a") okFunc 7 1) :=
  (C3_register_duplicate_overwrites [j1] ("a") okFunc 7 1 j1 rfl).1

/-! ### C4 -/

/-- C4: suspension is terminal under the scheduling loop: a job record whose
`retries` has reached `max_retries` is never among the invoked records of
any sweep of any trace (its work callable is never called again, whatever
it would return), and it sits unchanged at its registry position after the
whole trace. -/
theorem C4_suspension_terminal (times : List Int) (js : List Job) (j : Job)
    (h : j.max_retries ≤ j.retries) :
    j ∉ (runTrace times js).2 ∧
      ∀ i : Nat, js[i]? = some j → (runTrace times js).1[i]? = some j := by
  constructor
  · intro hmem
    have := runTrace_invoked_armed times js j hmem
    omega
  · intro i hi
    exact runTrace_get_suspended times js i j hi h

/-- C4, witness for `C4_suspension_terminal`: the suspended job `jSusp`
(`retries = max_retries = 1`, succeeding work) is never invoked across a
two-sweep trace. -/
theorem C4_suspension_terminal_witness : jSusp ∉ (runTrace [10, 20] [jSusp]).2 :=
  (C4_suspension_terminal [10, 20] [jSusp] jSusp (by decide)).1

/-! ### C7 -/

/-- C7: a sweep iterates the registry in registration order: if job `a`
appears before job `b` in the registry and both pass the loop's guard at
`now`, then the sweep's invocation list contains `a` strictly before `b`. -/
theorem C7_registration_order (now : Int) (l1 l2 l3 : List Job) (a b : Job)
    (ha : dueArmed now a = true) (hb : dueArmed now b = true) :
    ∃ u v w, (runOnce now (l1 ++ a :: l2 ++ b :: l3)).2 = u ++ a :: v ++ b :: w := by
  refine ⟨l1.filter (dueArmed now), l2.filter (dueArmed now),
    l3.filter (dueArmed now), ?_⟩
  rw [runOnce_snd]
  simp [List.filter_append, List.filter_cons, ha, hb]

/-- C7, witness for `C7_registration_order`: `jA` registered before `jB`,
both due at time `100`, and `jA` is invoked before `jB`. -/
theorem C7_registration_order_witness :
    ∃ u v w, (runOnce 100 ([] ++ jA :: [] ++ jB :: [])).2 = u ++ jA :: v ++ jB :: w :=
  C7_registration_order 100 [] [] [] jA jB (by decide) (by decide)

/-! ### C8 -/

/-- C8: a work-callable error is fully contained within `Job.run`: when the
due, armed job `a` fails at `now`, the sweep still processes every job
before and after `a` exactly as it would in isolation — the failure is
recorded as a state change on `a` (`retries` incremented) and the sweep
neither aborts nor propagates the error into the loop. -/
theorem C8_failure_contained (now : Int) (l1 l2 : List Job) (a : Job)
    (e : String) (hfail : a.func now = Except.error e)
    (ha : dueArmed now a = true) :
    (runOnce now (l1 ++ a :: l2)).1
        = (runOnce now l1).1 ++
            ({ a with retries := a.retries + 1 } : Job) :: (runOnce now l2).1 ∧
      (runOnce now (l1 ++ a :: l2)).2
        = (runOnce now l1).2 ++ a :: (runOnce now l2).2 := by
  have hstep : stepJob now a = { a with retries := a.retries + 1 } := by
    simp [stepJob, ha, Job.run, hfail]
  constructor
  · simp only [runOnce_fst, List.map_append, List.map_cons, hstep]
  · simp only [runOnce_snd, List.filter_append, List.filter_cons, ha]
    simp

/-- C8, witness for `C8_failure_contained`: the failing job `jF` between
`jA` and `jB` at time `100`. -/
theorem C8_failure_contained_witness :
    (runOnce 100 ([jA] ++ jF :: [jB])).1
        = (runOnce 100 [jA]).1 ++
            ({ jF with retries := jF.retries + 1 } : Job) :: (runOnce 100 [jB]).1 ∧
      (runOnce 100 ([jA] ++ jF :: [jB])).2
        = (runOnce 100 [jA]).2 ++ jF :: (runOnce 100 [jB]).2 :=
  C8_failure_contained 100 [jA] [jB] jF ("boom") rfl (by decide)

/-! ### C10 -/

/-- C10: the loop invariant `retries ≤ max_retries` (checked per record by
`retriesInv`) is preserved by every trace of the scheduler loop: the loop
only invokes a job when `retries < max_retries` held before the run, and a
failed run increments `retries` by exactly `1`, so starting from any
registry satisfying the invariant — in particular one of freshly registered
jobs, which have `retries = 0` — every reachable registry satisfies it. -/
theorem C10_retries_bounded (times : List Int) (js : List Job)
    (h : js.all retriesInv = true) :
    (runTrace times js).1.all retriesInv = true :=
  runTrace_all_retriesInv times js h

/-- C10, witness for `C10_retries_bounded` on the registry `[jF, jSusp]`
across a two-sweep trace. -/
theorem C10_retries_bounded_witness :
    (runTrace [10, 20] [jF, jSusp]).1.all retriesInv = true :=
  C10_retries_bounded [10, 20] [jF, jSusp] (by decide)
